import Mathlib

/-!
Verification of `src/packages/gatsby/src/utils/websocket-manager.js`.

The file shallowly embeds the websocket manager: its two result maps
(`pageResults`, `staticQueryResults`), the `activePaths` set, the socket.io
room bookkeeping, the cached-result loaders, and the per-connection event
handlers (`connection`, `registerPath`, `unregisterPath`, `disconnect`) as a
step function on an explicit server state.  JavaScript `Map`s and `Set`s are
modelled as insertion-ordered association lists; exceptions are modelled by an
`Option JsError` component of each step's result, with the mutations and
observable effects performed before the throw preserved, as in JavaScript.
Socket.io semantics relevant to the source are modelled explicitly: a
server-level `send` broadcasts to every connected socket, a room is removed
from the adapter when its last member leaves, and a disconnecting socket is
removed from all of its rooms before the `disconnect` handler runs.
-/

deriving instance DecidableEq for Except

namespace WebsocketManager

/-- Stand-in for parsed JSON values produced by the external `JSON.parse`;
the source treats page and static-query result values as opaque data. -/
abbrev JsValue := String

/-- Outcome of reading and parsing an artifact file at a filesystem path:
the file may be missing (`fs.readFileSync` throws `ENOENT`), unparsable
(`JSON.parse` throws `SyntaxError`), or yield a parsed value. -/
inductive ReadOutcome where
  | missing
  | corrupt
  | ok (v : JsValue)
deriving DecidableEq, Repr

/-- JavaScript exceptions the embedded code can throw. -/
inductive JsError where
  | typeError
  | enoent
  | syntaxError
deriving DecidableEq, Repr

/-- mirrors the source's `QueryResult` flow type: `{ id, result }`. -/
structure QueryResult where
  id : String
  result : JsValue
deriving DecidableEq, Repr

/-- Wire message `{ type, payload }`; the payload can be `undefined` when the
source sends a `pageResults` entry whose stored value is `undefined`. -/
structure Message where
  type : String
  payload : Option QueryResult
deriving DecidableEq, Repr

/-- Observable actions of the core: a server-level broadcast `send`, a
`console.log`, an artifact-file read attempt, and an explicit `s.leave`. -/
inductive Effect where
  | broadcast (msg : Message)
  | log (msg : String)
  | artifactRead (filePath : String)
  | leave (sid : Nat) (room : String)
deriving DecidableEq, Repr

/-- entry of the redux `pages` map used by `getCachedPageData`. -/
structure Page where
  jsonName : String
deriving DecidableEq, Repr

/-- entry of the redux `staticQueryComponents` map. -/
structure StaticQueryComponent where
  hash : String
  componentPath : String
  jsonName : String
deriving DecidableEq, Repr

/-- Ambient environment: the redux store state consumed by the loaders
(`pages`, `jsonDataPaths`, `staticQueryComponents`) and the filesystem. -/
structure Env where
  pages : List (String × Page)
  jsonDataPaths : List (String × String)
  staticQueryComponents : List StaticQueryComponent
  fs : String → ReadOutcome

/-- first-match lookup on an association list (JS `Map.get` / object index). -/
def lookupM {κ α : Type} [DecidableEq κ] (m : List (κ × α)) (k : κ) : Option α :=
  match m with
  | [] => none
  | kv :: rest => if kv.1 = k then some kv.2 else lookupM rest k

/-- JS `Map.set`: replace the binding in place if the key exists, else append. -/
def setM {κ α : Type} [DecidableEq κ] (m : List (κ × α)) (k : κ) (v : α) : List (κ × α) :=
  match m with
  | [] => [(k, v)]
  | kv :: rest => if kv.1 = k then (k, v) :: rest else kv :: setM rest k v

/-- JS `Map.has`. -/
def hasM {κ α : Type} [DecidableEq κ] (m : List (κ × α)) (k : κ) : Bool :=
  (lookupM m k).isSome

/-- JS `Set.add`: idempotent, keeps insertion order. -/
def setAdd {α : Type} [DecidableEq α] (s : List α) (x : α) : List α :=
  if x ∈ s then s else s ++ [x]

/-- JS `Set.delete` / removal of a member. -/
def setDelete {α : Type} [DecidableEq α] (s : List α) (x : α) : List α :=
  s.filter (fun y => decide (y ≠ x))

/-- models `new Map([...a, ...b])`: iterate all entries, later bindings win. -/
def mergeMaps {κ α : Type} [DecidableEq κ] (a b : List (κ × α)) : List (κ × α) :=
  (a ++ b).foldl (fun m kv => setM m kv.1 kv.2) []

/-- socket.io `socket.join`: add the socket to the room, creating it on demand. -/
def roomsJoin (rooms : List (String × List Nat)) (name : String) (sid : Nat) :
    List (String × List Nat) :=
  match lookupM rooms name with
  | none => rooms ++ [(name, [sid])]
  | some ms => setM rooms name (setAdd ms sid)

/-- socket.io `socket.leave`: remove the socket from the room; the adapter
deletes a room once its last member leaves. -/
def roomsLeave (rooms : List (String × List Nat)) (name : String) (sid : Nat) :
    List (String × List Nat) :=
  match rooms with
  | [] => []
  | kv :: rest =>
    if kv.1 = name then
      (let ms := setDelete kv.2 sid
       if ms.isEmpty then roomsLeave rest name sid else (kv.1, ms) :: roomsLeave rest name sid)
    else kv :: roomsLeave rest name sid

/-- socket.io disconnection cleanup: the socket leaves every room it is in. -/
def roomsLeaveAll (rooms : List (String × List Nat)) (sid : Nat) :
    List (String × List Nat) :=
  match rooms with
  | [] => []
  | kv :: rest =>
    (let ms := setDelete kv.2 sid
     if ms.isEmpty then roomsLeaveAll rest sid else (kv.1, ms) :: roomsLeaveAll rest sid)

/-- models `path.join(directory, "public", "static", "d", dataFileName + ".json")`
from `readCachedResults`. -/
def artifactFilePath (directory dataFileName : String) : String :=
  directory ++ "/public/static/d/" ++ dataFileName ++ ".json"

/-- `readCachedResults(dataFileName, directory)`: resolve the artifact path and
`JSON.parse(fs.readFileSync(filePath, "utf-8"))`.  The returned effect list
records the read attempt; a missing or corrupt file is a thrown exception. -/
def readCachedResults (fs : String → ReadOutcome) (dataFileName directory : String) :
    List Effect × Except JsError JsValue :=
  let filePath := artifactFilePath directory dataFileName
  ([Effect.artifactRead filePath],
    match fs filePath with
    | ReadOutcome.missing => Except.error JsError.enoent
    | ReadOutcome.corrupt => Except.error JsError.syntaxError
    | ReadOutcome.ok v => Except.ok v)

/-- text logged by `getCachedPageData` when the metadata lookup fails. -/
def pageQueryLogMsg (pagePath : String) : String :=
  "Error loading a result for the page query in \"" ++ pagePath ++
    "\". Query was not run and no cached result was found."

/-- text logged by `getCachedStaticQueryResults` when the metadata lookup fails. -/
def staticQueryLogMsg (componentPath : String) : String :=
  "Error loading a result for the StaticQuery in \"" ++ componentPath ++
    "\". Query was not run and no cached result was found."

/-- `getCachedPageData(pagePath, directory)`.  Mirrors the source exactly:
`pages.get(pagePath)` yielding `undefined` makes the subsequent
`page.jsonName` access throw a `TypeError`; an absent `jsonDataPaths` entry
logs and returns `undefined` (`Except.ok none`); otherwise the artifact is
read (possibly throwing) and wrapped as `{ result, id: pagePath }`. -/
def getCachedPageData (env : Env) (pagePath directory : String) :
    List Effect × Except JsError (Option QueryResult) :=
  match lookupM env.pages pagePath with
  | none => ([], Except.error JsError.typeError)
  | some page =>
    match lookupM env.jsonDataPaths page.jsonName with
    | none => ([Effect.log (pageQueryLogMsg pagePath)], Except.ok none)
    | some dataPath =>
      match readCachedResults env.fs dataPath directory with
      | (effs, Except.error e) => (effs, Except.error e)
      | (effs, Except.ok v) => (effs, Except.ok (some { id := pagePath, result := v }))

/-- loop body of `getCachedStaticQueryResults`: iterate the components in
order; skip hashes already in `resultsMap`; an absent `jsonDataPaths` entry
logs and continues; an exception from `readCachedResults` propagates and
aborts the whole batch (the source has no try/catch around the read). -/
def getCachedStaticQueryResultsAux (env : Env) (resultsMap : List (String × QueryResult))
    (directory : String) :
    List StaticQueryComponent → List (String × QueryResult) →
      List Effect × Except JsError (List (String × QueryResult))
  | [], acc => ([], Except.ok acc)
  | c :: rest, acc =>
    if hasM resultsMap c.hash then
      getCachedStaticQueryResultsAux env resultsMap directory rest acc
    else
      match lookupM env.jsonDataPaths c.jsonName with
      | none =>
        let r := getCachedStaticQueryResultsAux env resultsMap directory rest acc
        (Effect.log (staticQueryLogMsg c.componentPath) :: r.1, r.2)
      | some dataPath =>
        match readCachedResults env.fs dataPath directory with
        | (reffs, Except.error e) => (reffs, Except.error e)
        | (reffs, Except.ok v) =>
          let r := getCachedStaticQueryResultsAux env resultsMap directory rest
            (setM acc c.hash { id := c.hash, result := v })
          (reffs ++ r.1, r.2)

/-- `getCachedStaticQueryResults(resultsMap, directory)`. -/
def getCachedStaticQueryResults (env : Env) (resultsMap : List (String × QueryResult))
    (directory : String) : List Effect × Except JsError (List (String × QueryResult)) :=
  getCachedStaticQueryResultsAux env resultsMap directory env.staticQueryComponents []

/-- JS template-literal coercion of the path interpolated into a room name:
`null` prints as `"null"`. -/
def jsPathString : Option String → String
  | some p => p
  | none => "null"

/-- `getRoomNameFromPath`: the string `path-` followed by the path value. -/
def getRoomNameFromPath (p : Option String) : String :=
  "path-" ++ jsPathString p

/-- State of the manager plus the transport bookkeeping the source relies on:
`rooms` is the socket.io adapter's room map, `connected` the set of connected
sockets, and `sockets` maps each connected socket to its handler closure's
`activePath` variable (initially `null`). -/
structure ServerState where
  isInitialised : Bool
  activePaths : List (Option String)
  pageResults : List (String × Option QueryResult)
  staticQueryResults : List (String × QueryResult)
  programDir : String
  rooms : List (String × List Nat)
  connected : List Nat
  sockets : List (Nat × Option String)
deriving DecidableEq, Repr

/-- state built by the `WebsocketManager` constructor. -/
def initialState : ServerState :=
  { isInitialised := false, activePaths := [], pageResults := [], staticQueryResults := [],
    programDir := "", rooms := [], connected := [], sockets := [] }

/-- result of handling one operation: the new state, the effects performed,
and the exception thrown, if any (mutations before the throw persist). -/
structure StepResult where
  state : ServerState
  effects : List Effect
  error : Option JsError
deriving DecidableEq, Repr

/-- the `leaveRoom` closure of the connection handler: `s.leave(room)`, then
delete the path from `activePaths` when the adapter shows the room empty or
gone. -/
def leaveRoom (st : ServerState) (sid : Nat) (p : Option String) :
    ServerState × List Effect :=
  let room := getRoomNameFromPath p
  let rooms1 := roomsLeave st.rooms room sid
  let emptyNow :=
    match lookupM rooms1 room with
    | none => true
    | some ms => ms.isEmpty
  ({ st with rooms := rooms1,
             activePaths := if emptyNow then setDelete st.activePaths p else st.activePaths },
   [Effect.leave sid room])

/-- `init({ server, directory })`: record the program directory, batch-load the
missing static-query results (an exception aborts `init` before the merge and
before `isInitialised` is set), merge them via `new Map([...fresh, ...cached])`,
and mark the manager initialised. -/
def handleInit (env : Env) (st : ServerState) (directory : String) : StepResult :=
  let st1 := { st with programDir := directory }
  match getCachedStaticQueryResults env st1.staticQueryResults st1.programDir with
  | (effs, Except.error e) => { state := st1, effects := effs, error := some e }
  | (effs, Except.ok cached) =>
    { state := { st1 with staticQueryResults := mergeMaps st1.staticQueryResults cached,
                          isInitialised := true },
      effects := effs, error := none }

/-- the `connection` handler: the new socket is connected, its closure's
`activePath` is `null`, then every stored static-query result and every stored
page result is sent with the server-level `this.websocket.send`, i.e.
broadcast. -/
def handleConnection (st : ServerState) (sid : Nat) : StepResult :=
  let st1 := { st with connected := setAdd st.connected sid,
                       sockets := setM st.sockets sid none }
  { state := st1,
    effects :=
      st1.staticQueryResults.map
        (fun kv => Effect.broadcast { type := "staticQueryResult", payload := some kv.2 }) ++
      st1.pageResults.map
        (fun kv => Effect.broadcast { type := "pageQueryResult", payload := kv.2 }),
    error := none }

/-- JS `Map.get` on `pageResults`: `undefined` both for an absent key and for a
stored `undefined` value. -/
def jsGet (m : List (String × Option QueryResult)) (k : String) : Option QueryResult :=
  match lookupM m k with
  | some v => v
  | none => none

/-- the `registerPath` handler: join the room, set the closure's `activePath`,
add the path to `activePaths`; if `pageResults` lacks the key, call
`getCachedPageData` (whose exceptions propagate after those mutations) and
store its value, `undefined` included; finally broadcast the stored entry. -/
def handleRegisterPath (env : Env) (st : ServerState) (sid : Nat) (p : String) : StepResult :=
  let st1 := { st with rooms := roomsJoin st.rooms (getRoomNameFromPath (some p)) sid,
                       sockets := setM st.sockets sid (some p),
                       activePaths := setAdd st.activePaths (some p) }
  if hasM st1.pageResults p then
    { state := st1,
      effects := [Effect.broadcast { type := "pageQueryResult", payload := jsGet st1.pageResults p }],
      error := none }
  else
    match getCachedPageData env p st1.programDir with
    | (effs, Except.error e) => { state := st1, effects := effs, error := some e }
    | (effs, Except.ok v) =>
      let st2 := { st1 with pageResults := setM st1.pageResults p v }
      { state := st2,
        effects := effs ++
          [Effect.broadcast { type := "pageQueryResult", payload := jsGet st2.pageResults p }],
        error := none }

/-- the `unregisterPath` handler: `leaveRoom(path)`; the closure's `activePath`
is not updated. -/
def handleUnregisterPath (st : ServerState) (sid : Nat) (p : String) : StepResult :=
  let r := leaveRoom st sid (some p)
  { state := r.1, effects := r.2, error := none }

/-- the `disconnect` handler: socket.io removes the socket from all rooms and
from the connected set before the handler runs; the handler then calls
`leaveRoom(activePath)` for the closure's last active path only. -/
def handleDisconnect (st : ServerState) (sid : Nat) : StepResult :=
  match lookupM st.sockets sid with
  | none => { state := st, effects := [], error := none }
  | some activePath =>
    let st1 := { st with rooms := roomsLeaveAll st.rooms sid,
                         connected := setDelete st.connected sid }
    let r := leaveRoom st1 sid activePath
    { state := { r.1 with sockets := r.1.sockets.filter (fun kv => decide (kv.1 ≠ sid)) },
      effects := r.2, error := none }

/-- `emitStaticQueryData(data)`: store under `data.id`, and broadcast only once
initialised. -/
def emitStaticQueryData (st : ServerState) (d : QueryResult) : StepResult :=
  { state := { st with staticQueryResults := setM st.staticQueryResults d.id d },
    effects := if st.isInitialised
      then [Effect.broadcast { type := "staticQueryResult", payload := some d }] else [],
    error := none }

/-- `emitPageData(data)`: broadcast only once initialised, and store under
`data.id`. -/
def emitPageData (st : ServerState) (d : QueryResult) : StepResult :=
  { state := { st with pageResults := setM st.pageResults d.id (some d) },
    effects := if st.isInitialised
      then [Effect.broadcast { type := "pageQueryResult", payload := some d }] else [],
    error := none }

/-- operations of the manager: the public entry points and the per-connection
events of the wire protocol. -/
inductive Op where
  | init (directory : String)
  | connect (sid : Nat)
  | registerPath (sid : Nat) (path : String)
  | unregisterPath (sid : Nat) (path : String)
  | disconnect (sid : Nat)
  | emitPageData (d : QueryResult)
  | emitStaticQueryData (d : QueryResult)
deriving DecidableEq, Repr

/-- dispatch one operation to its handler. -/
def step (env : Env) (st : ServerState) : Op → StepResult
  | Op.init directory => handleInit env st directory
  | Op.connect sid => handleConnection st sid
  | Op.registerPath sid p => handleRegisterPath env st sid p
  | Op.unregisterPath sid p => handleUnregisterPath st sid p
  | Op.disconnect sid => handleDisconnect st sid
  | Op.emitPageData d => emitPageData st d
  | Op.emitStaticQueryData d => emitStaticQueryData st d

/-- run a sequence of operations, stopping at the first thrown exception and
concatenating the effects of the executed steps. -/
def runTrace (env : Env) (st : ServerState) : List Op → StepResult
  | [] => { state := st, effects := [], error := none }
  | op :: rest =>
    let r := step env st op
    match r.error with
    | some e => { state := r.state, effects := r.effects, error := some e }
    | none =>
      let r2 := runTrace env r.state rest
      { state := r2.state, effects := r.effects ++ r2.effects, error := r2.error }

/-- messages the transport delivers to socket `sid` out of the effect list
`effs`, given the connected-socket set of `st` at send time: a server-level
`send` is delivered to every connected socket. -/
def deliveredMessages (st : ServerState) (effs : List Effect) (sid : Nat) : List Message :=
  if sid ∈ st.connected then
    effs.filterMap (fun e => match e with | Effect.broadcast m => some m | _ => none)
  else []

/-- number of artifact-file read attempts recorded in an effect list. -/
def countArtifactReads (effs : List Effect) : Nat :=
  (effs.filter (fun e => match e with | Effect.artifactRead _ => true | _ => false)).length

/-! ### Concrete environments and states used in counterexamples and witnesses -/

/-- environment with an empty redux store and no artifacts on disk. -/
def emptyEnv : Env :=
  { pages := [], jsonDataPaths := [], staticQueryComponents := [],
    fs := fun _ => ReadOutcome.missing }

/-- environment where page `/missing-data` exists but its query never ran:
`jsonDataPaths` has no entry for its `jsonName`. -/
def envMissingMeta : Env :=
  { pages := [("/missing-data", { jsonName := "pg" })], jsonDataPaths := [],
    staticQueryComponents := [], fs := fun _ => ReadOutcome.missing }

/-- environment with two static-query components: the artifact of the first is
corrupt, the artifact of the second is present and valid. -/
def envCorruptFirst : Env :=
  { pages := [], jsonDataPaths := [("j1", "d1"), ("j2", "d2")],
    staticQueryComponents :=
      [ { hash := "h1", componentPath := "/c1", jsonName := "j1" },
        { hash := "h2", componentPath := "/c2", jsonName := "j2" } ],
    fs := fun s => if s = artifactFilePath "/app" "d2" then ReadOutcome.ok "v2"
      else ReadOutcome.corrupt }

/-- environment where page `/about` has metadata entry `abc123` and a valid
artifact on disk. -/
def envPageOk : Env :=
  { pages := [("/about", { jsonName := "pj" })], jsonDataPaths := [("pj", "abc123")],
    staticQueryComponents := [],
    fs := fun s => if s = artifactFilePath "/app" "abc123" then ReadOutcome.ok "vAbout"
      else ReadOutcome.missing }

/-- environment with one already-known component (`h1`) and one component
(`h2`) whose valid artifact must be loaded from disk. -/
def envStaticOk : Env :=
  { pages := [], jsonDataPaths := [("j2", "d2")],
    staticQueryComponents :=
      [ { hash := "h1", componentPath := "/c1", jsonName := "j1" },
        { hash := "h2", componentPath := "/c2", jsonName := "j2" } ],
    fs := fun s => if s = artifactFilePath "/app" "d2" then ReadOutcome.ok "v2"
      else ReadOutcome.missing }

/-- a shared result pushed fresh before initialisation. -/
def freshH1 : QueryResult := { id := "h1", result := "fresh1" }

/-- state holding the fresh shared result `freshH1`. -/
def stFresh : ServerState := { initialState with staticQueryResults := [("h1", freshH1)] }

/-- state whose `pageResults` already holds `/about`, with program directory
set; its room map is empty. -/
def stHasPage : ServerState :=
  { initialState with
    pageResults := [("/about", some { id := "/about", result := "vA" })],
    programDir := "/app" }

/-- like `stHasPage`, but another connection (socket 7) is already joined to
the room of `/about`. -/
def stHasPageOther : ServerState :=
  { stHasPage with rooms := [("path-/about", [7])], activePaths := [some "/about"] }

/-- state whose `pageResults` holds both `p1` and `p2`. -/
def stTwoPages : ServerState :=
  { initialState with
    pageResults := [("p1", some { id := "p1", result := "v1" }),
                    ("p2", some { id := "p2", result := "v2" })] }

/-- initialised state. -/
def stInit : ServerState := { initialState with isInitialised := true }

/-- initialised state with socket 0 connected and never registered. -/
def stConn : ServerState :=
  { initialState with
    isInitialised := true, connected := [0],
    sockets := [(0, none)], activePaths := [some "/a"] }

/-- fresh state whose program directory is `/app`. -/
def stProg : ServerState := { initialState with programDir := "/app" }

/-! ### Association-list, set and room lemmas -/

theorem lookupM_setM_self {κ α : Type} [DecidableEq κ] (m : List (κ × α)) (k : κ) (v : α) :
    lookupM (setM m k v) k = some v := by
  induction m with
  | nil => simp [setM, lookupM]
  | cons kv rest ih =>
    by_cases h : kv.1 = k
    · simp [setM, h, lookupM]
    · simp [setM, h, lookupM, ih]

theorem lookupM_setM_ne {κ α : Type} [DecidableEq κ] (m : List (κ × α)) (k k' : κ) (v : α)
    (h : k' ≠ k) : lookupM (setM m k v) k' = lookupM m k' := by
  induction m with
  | nil => simp [setM, lookupM, Ne.symm h]
  | cons kv rest ih =>
    by_cases hk : kv.1 = k
    · simp [setM, hk, lookupM, Ne.symm h]
    · simp [setM, hk, lookupM, ih]

theorem hasM_setM_self {κ α : Type} [DecidableEq κ] (m : List (κ × α)) (k : κ) (v : α) :
    hasM (setM m k v) k = true := by
  simp [hasM, lookupM_setM_self]

theorem lookupM_append_some {κ α : Type} [DecidableEq κ] {m1 m2 : List (κ × α)} {k : κ}
    {v : α} (h : lookupM m1 k = some v) : lookupM (m1 ++ m2) k = some v := by
  induction m1 with
  | nil => simp [lookupM] at h
  | cons kv rest ih =>
    by_cases hk : kv.1 = k <;> simp_all [lookupM]

theorem lookupM_append_none {κ α : Type} [DecidableEq κ] {m1 : List (κ × α)}
    (m2 : List (κ × α)) {k : κ} (h : lookupM m1 k = none) :
    lookupM (m1 ++ m2) k = lookupM m2 k := by
  induction m1 with
  | nil => simp
  | cons kv rest ih =>
    by_cases hk : kv.1 = k <;> simp_all [lookupM]

theorem lookupM_eq_none_iff {κ α : Type} [DecidableEq κ] (m : List (κ × α)) (k : κ) :
    lookupM m k = none ↔ k ∉ m.map Prod.fst := by
  induction m with
  | nil => simp [lookupM]
  | cons kv rest ih =>
    by_cases hk : kv.1 = k
    · simp [lookupM, hk]
    · have hk' : ¬k = kv.1 := fun hh => hk hh.symm
      simp [lookupM, hk, hk', ih]

theorem lookupM_reverse_none_iff {κ α : Type} [DecidableEq κ] (m : List (κ × α)) (k : κ) :
    lookupM m.reverse k = none ↔ lookupM m k = none := by
  simp [lookupM_eq_none_iff]

theorem lookupM_reverse_of_nodup {κ α : Type} [DecidableEq κ] {m : List (κ × α)}
    (hnd : (m.map Prod.fst).Nodup) (k : κ) : lookupM m.reverse k = lookupM m k := by
  induction m with
  | nil => simp
  | cons kv rest ih =>
    rw [List.map_cons, List.nodup_cons] at hnd
    rw [List.reverse_cons]
    by_cases hk : kv.1 = k
    · have h1 : lookupM rest k = none := (lookupM_eq_none_iff rest k).2 (hk ▸ hnd.1)
      have h2 : lookupM rest.reverse k = none := (lookupM_reverse_none_iff rest k).2 h1
      rw [lookupM_append_none _ h2]
      simp [lookupM, hk]
    · cases hr : lookupM rest.reverse k with
      | some v =>
        rw [lookupM_append_some hr]
        rw [ih hnd.2] at hr
        simp [lookupM, hk, hr]
      | none =>
        rw [lookupM_append_none _ hr]
        have h1 : lookupM rest k = none := (lookupM_reverse_none_iff rest k).1 hr
        simp [lookupM, hk, h1]

theorem foldl_setM_lookup {κ α : Type} [DecidableEq κ] (l : List (κ × α))
    (m0 : List (κ × α)) (k : κ) :
    lookupM (l.foldl (fun m kv => setM m kv.1 kv.2) m0) k =
      match lookupM l.reverse k with
      | some v => some v
      | none => lookupM m0 k := by
  induction l generalizing m0 with
  | nil => simp [lookupM]
  | cons kv rest ih =>
    rw [List.foldl_cons, ih, List.reverse_cons]
    cases hr : lookupM rest.reverse k with
    | some v => rw [lookupM_append_some hr]
    | none =>
      rw [lookupM_append_none _ hr]
      by_cases hk : kv.1 = k
      · subst hk
        simp [lookupM, lookupM_setM_self]
      · simp [lookupM, hk, lookupM_setM_ne _ _ _ _ (fun hh => hk hh.symm)]

theorem lookupM_mergeMaps {κ α : Type} [DecidableEq κ] (a b : List (κ × α)) (k : κ) :
    lookupM (mergeMaps a b) k = lookupM (b.reverse ++ a.reverse) k := by
  rw [mergeMaps, foldl_setM_lookup, List.reverse_append]
  cases h : lookupM (b.reverse ++ a.reverse) k <;> simp [lookupM]

theorem mergeMaps_preserves {κ α : Type} [DecidableEq κ] {a b : List (κ × α)} {k : κ} {v : α}
    (hnd : (a.map Prod.fst).Nodup) (ha : lookupM a k = some v) (hb : lookupM b k = none) :
    lookupM (mergeMaps a b) k = some v := by
  rw [lookupM_mergeMaps, lookupM_append_none _ ((lookupM_reverse_none_iff b k).2 hb),
    lookupM_reverse_of_nodup hnd, ha]

theorem mergeMaps_right {κ α : Type} [DecidableEq κ] {a b : List (κ × α)} {k : κ}
    (hndb : (b.map Prod.fst).Nodup) (ha : lookupM a k = none) :
    lookupM (mergeMaps a b) k = lookupM b k := by
  rw [lookupM_mergeMaps]
  cases hb : lookupM b.reverse k with
  | some v =>
    rw [lookupM_append_some hb, ← lookupM_reverse_of_nodup hndb, hb]
  | none =>
    rw [lookupM_append_none _ hb,
      (lookupM_reverse_none_iff a k).2 ha,
      ← lookupM_reverse_of_nodup hndb, hb]

theorem lookupM_some_mem {κ α : Type} [DecidableEq κ] {m : List (κ × α)} {k : κ} {v : α}
    (h : lookupM m k = some v) : (k, v) ∈ m := by
  induction m with
  | nil => simp [lookupM] at h
  | cons kv rest ih =>
    by_cases hk : kv.1 = k
    · simp only [lookupM, if_pos hk] at h
      injection h with h2
      subst hk
      subst h2
      exact List.mem_cons_self _ _
    · simp only [lookupM, if_neg hk] at h
      exact List.mem_cons_of_mem _ (ih h)

theorem setM_keys_mem {κ α : Type} [DecidableEq κ] {m : List (κ × α)} {k : κ} {v : α}
    {x : κ} (h : x ∈ (setM m k v).map Prod.fst) : x = k ∨ x ∈ m.map Prod.fst := by
  induction m with
  | nil =>
    simp [setM] at h
    exact Or.inl h
  | cons kv rest ih =>
    rw [List.map_cons, List.mem_cons]
    by_cases hk : kv.1 = k
    · rw [setM, if_pos hk, List.map_cons] at h
      rcases List.mem_cons.1 h with h1 | h1
      · exact Or.inl h1
      · exact Or.inr (Or.inr h1)
    · rw [setM, if_neg hk, List.map_cons] at h
      rcases List.mem_cons.1 h with h1 | h1
      · exact Or.inr (Or.inl h1)
      · rcases ih h1 with h2 | h2
        · exact Or.inl h2
        · exact Or.inr (Or.inr h2)

theorem setM_keys_nodup {κ α : Type} [DecidableEq κ] {m : List (κ × α)} (k : κ) (v : α)
    (hnd : (m.map Prod.fst).Nodup) : ((setM m k v).map Prod.fst).Nodup := by
  induction m with
  | nil => simp [setM]
  | cons kv rest ih =>
    rw [List.map_cons, List.nodup_cons] at hnd
    by_cases hk : kv.1 = k
    · rw [setM, if_pos hk, List.map_cons, List.nodup_cons]
      exact ⟨hk ▸ hnd.1, hnd.2⟩
    · rw [setM, if_neg hk, List.map_cons, List.nodup_cons]
      refine ⟨fun hmem => ?_, ih hnd.2⟩
      rcases setM_keys_mem hmem with h | h
      · exact hk h
      · exact hnd.1 h

theorem mem_setAdd_iff {α : Type} [DecidableEq α] (s : List α) (x y : α) :
    y ∈ setAdd s x ↔ y ∈ s ∨ y = x := by
  by_cases h : x ∈ s
  · simp only [setAdd, if_pos h]
    exact ⟨Or.inl, fun o => o.elim id (fun e => e ▸ h)⟩
  · simp [setAdd, h]

theorem mem_setDelete_iff {α : Type} [DecidableEq α] (s : List α) (x y : α) :
    y ∈ setDelete s x ↔ y ∈ s ∧ y ≠ x := by
  simp [setDelete]

theorem roomsJoin_mem_self (rooms : List (String × List Nat)) (name : String) (sid : Nat) :
    sid ∈ (lookupM (roomsJoin rooms name sid) name).getD [] := by
  rw [roomsJoin]
  cases h : lookupM rooms name with
  | none =>
    rw [lookupM_append_none _ h]
    simp [lookupM]
  | some ms =>
    rw [lookupM_setM_self]
    simp [mem_setAdd_iff]

theorem roomsJoin_lookup_ne (rooms : List (String × List Nat)) (name name' : String)
    (sid : Nat) (h : name' ≠ name) :
    lookupM (roomsJoin rooms name sid) name' = lookupM rooms name' := by
  rw [roomsJoin]
  cases hl : lookupM rooms name with
  | none =>
    cases h2 : lookupM rooms name' with
    | some v => rw [lookupM_append_some h2]
    | none =>
      rw [lookupM_append_none _ h2]
      simp [lookupM, Ne.symm h]
  | some ms => exact lookupM_setM_ne _ _ _ _ h

theorem roomsLeave_of_lookup_none (rooms : List (String × List Nat)) (name : String)
    (sid : Nat) (h : lookupM rooms name = none) : roomsLeave rooms name sid = rooms := by
  induction rooms with
  | nil => simp [roomsLeave]
  | cons kv rest ih =>
    by_cases hk : kv.1 = name
    · simp [lookupM, hk] at h
    · simp only [lookupM, if_neg hk] at h
      rw [roomsLeave, if_neg hk, ih h]

theorem roomsLeave_lookup_of_mem (rooms : List (String × List Nat)) (name : String)
    (sid sid2 : Nat) (ms : List Nat) (h : lookupM rooms name = some ms)
    (hmem : sid2 ∈ ms) (hne : sid2 ≠ sid) :
    lookupM (roomsLeave rooms name sid) name = some (setDelete ms sid) := by
  induction rooms with
  | nil => simp [lookupM] at h
  | cons kv rest ih =>
    by_cases hk : kv.1 = name
    · simp only [lookupM, if_pos hk] at h
      injection h with h2
      have hmem2 : sid2 ∈ setDelete kv.2 sid := by
        rw [h2, mem_setDelete_iff]
        exact ⟨hmem, hne⟩
      have hne2 : (setDelete kv.2 sid).isEmpty = false := by
        simp [List.isEmpty_iff]
        exact List.ne_nil_of_mem hmem2
      rw [roomsLeave, if_pos hk]
      simp only [hne2]
      simp [lookupM, hk, h2]
    · simp only [lookupM, if_neg hk] at h
      rw [roomsLeave, if_neg hk, lookupM, if_neg hk]
      exact ih h

theorem getRoomNameFromPath_ne (p1 p2 : String) (h : p1 ≠ p2) :
    getRoomNameFromPath (some p1) ≠ getRoomNameFromPath (some p2) := by
  intro hc
  apply h
  rw [getRoomNameFromPath, getRoomNameFromPath, jsPathString, jsPathString] at hc
  have hd := congrArg String.data hc
  simp at hd
  exact String.ext hd

theorem roomsLeave_append (xs ys : List (String × List Nat)) (name : String) (sid : Nat) :
    roomsLeave (xs ++ ys) name sid = roomsLeave xs name sid ++ roomsLeave ys name sid := by
  induction xs with
  | nil => simp [roomsLeave]
  | cons kv rest ih =>
    by_cases hk : kv.1 = name
    · by_cases he : (setDelete kv.2 sid).isEmpty
      · simp [roomsLeave, hk, he, ih]
      · simp [roomsLeave, hk, he, ih]
    · simp [roomsLeave, hk, ih]

theorem roomsLeave_single_self (name : String) (sid : Nat) :
    roomsLeave [(name, [sid])] name sid = [] := by
  simp [roomsLeave, setDelete]

theorem getCachedStaticQueryResultsAux_lookup_of_has (env : Env)
    (resultsMap : List (String × QueryResult)) (directory : String)
    (comps : List StaticQueryComponent) (acc cached : List (String × QueryResult))
    (k : String)
    (hres : (getCachedStaticQueryResultsAux env resultsMap directory comps acc).2
      = Except.ok cached)
    (hk : hasM resultsMap k = true) :
    lookupM cached k = lookupM acc k := by
  induction comps generalizing acc with
  | nil =>
    simp [getCachedStaticQueryResultsAux] at hres
    rw [hres]
  | cons c rest ih =>
    by_cases hc : hasM resultsMap c.hash = true
    · rw [getCachedStaticQueryResultsAux] at hres
      simp only [hc, if_pos] at hres
      exact ih acc hres
    · rw [getCachedStaticQueryResultsAux] at hres
      rw [Bool.not_eq_true] at hc
      simp only [hc] at hres
      cases hj : lookupM env.jsonDataPaths c.jsonName with
      | none =>
        rw [hj] at hres
        simp at hres
        exact ih acc hres
      | some dataPath =>
        rw [hj] at hres
        simp only [readCachedResults] at hres
        cases hf : env.fs (artifactFilePath directory dataPath) with
        | missing => rw [hf] at hres; simp at hres
        | corrupt => rw [hf] at hres; simp at hres
        | ok v =>
          rw [hf] at hres
          simp at hres
          have hkc : k ≠ c.hash := by
            intro hh
            rw [hh] at hk
            rw [hk] at hc
            exact Bool.noConfusion hc
          rw [ih _ hres, lookupM_setM_ne _ _ _ _ hkc]

theorem getCachedStaticQueryResultsAux_nodup (env : Env)
    (resultsMap : List (String × QueryResult)) (directory : String)
    (comps : List StaticQueryComponent) (acc cached : List (String × QueryResult))
    (hacc : (acc.map Prod.fst).Nodup)
    (hres : (getCachedStaticQueryResultsAux env resultsMap directory comps acc).2
      = Except.ok cached) :
    (cached.map Prod.fst).Nodup := by
  induction comps generalizing acc with
  | nil =>
    simp [getCachedStaticQueryResultsAux] at hres
    rw [← hres]
    exact hacc
  | cons c rest ih =>
    by_cases hc : hasM resultsMap c.hash = true
    · rw [getCachedStaticQueryResultsAux] at hres
      simp only [hc, if_pos] at hres
      exact ih acc hacc hres
    · rw [getCachedStaticQueryResultsAux] at hres
      rw [Bool.not_eq_true] at hc
      simp only [hc] at hres
      cases hj : lookupM env.jsonDataPaths c.jsonName with
      | none =>
        rw [hj] at hres
        simp at hres
        exact ih acc hacc hres
      | some dataPath =>
        rw [hj] at hres
        simp only [readCachedResults] at hres
        cases hf : env.fs (artifactFilePath directory dataPath) with
        | missing => rw [hf] at hres; simp at hres
        | corrupt => rw [hf] at hres; simp at hres
        | ok v =>
          rw [hf] at hres
          simp at hres
          exact ih _ (setM_keys_nodup _ _ hacc) hres

theorem handleRegisterPath_of_has (env : Env) (st : ServerState) (sid : Nat) (p : String)
    (h : hasM st.pageResults p = true) :
    handleRegisterPath env st sid p =
      { state := { st with
                   rooms := roomsJoin st.rooms (getRoomNameFromPath (some p)) sid,
                   sockets := setM st.sockets sid (some p),
                   activePaths := setAdd st.activePaths (some p) },
        effects := [Effect.broadcast { type := "pageQueryResult", payload := jsGet st.pageResults p }],
        error := none } := by
  simp [handleRegisterPath, h]

theorem handleInit_state_of_ok (env : Env) (st : ServerState) (directory : String)
    (effs : List Effect) (cached : List (String × QueryResult))
    (hload : getCachedStaticQueryResults env st.staticQueryResults directory
      = (effs, Except.ok cached)) :
    (step env st (Op.init directory)).state =
      { st with
        staticQueryResults := mergeMaps st.staticQueryResults cached,
        programDir := directory,
        isInitialised := true } := by
  simp only [step, handleInit]
  simp [hload]

/-! ### Claims -/

/-- Claim C1: on a new client connection, the replay of every stored shared
and page result is sent to the new connection only and is not re-broadcast to
already-connected clients.  The code violates this: the `connection` handler
performs the replay with the server-level `this.websocket.send`, which
broadcasts to every connected socket.  Concretely, after socket 0 connects
and a shared result `h1` is published, socket 1 connecting makes the
already-connected socket 0 receive the replay of `h1` again. -/
theorem C1_replay_rebroadcast_to_connected_client :
    (let t := runTrace emptyEnv initialState
        [Op.init "/app", Op.connect 0,
         Op.emitStaticQueryData { id := "h1", result := "r1" }]
     let r := step emptyEnv t.state (Op.connect 1)
     0 ∈ r.state.connected ∧
     deliveredMessages r.state r.effects 0
       = [{ type := "staticQueryResult", payload := some { id := "h1", result := "r1" } }]) := by
  decide

/-- Claim C2: a `registerPath(p)` for a `p` absent from the metadata index
should log, respond with an absent result, not throw, and not cache a
placeholder.  The code half-complies: when page `p` exists but its
`jsonDataPaths` entry is absent, the handler logs, does not throw and sends an
`undefined` payload, but it then caches the `undefined` placeholder under `p`
in `pageResults` (the lookup yields `some none`); and when `p` has no page
entry at all, `getCachedPageData` throws a `TypeError` from the
`page.jsonName` access, terminating the handler. -/
theorem C2_missing_metadata_caches_placeholder_or_throws :
    (let r := runTrace envMissingMeta initialState
        [Op.init "/app", Op.connect 0, Op.registerPath 0 "/missing-data"]
     r.error = none ∧
     Effect.log (pageQueryLogMsg "/missing-data") ∈ r.effects ∧
     Effect.broadcast { type := "pageQueryResult", payload := none } ∈ r.effects ∧
     lookupM r.state.pageResults "/missing-data" = some none) ∧
    (runTrace emptyEnv initialState
        [Op.init "/app", Op.connect 0, Op.registerPath 0 "/nopage"]).error
      = some JsError.typeError := by
  decide

/-- Claim C3: the batch load of missing shared results should handle a missing
or corrupt artifact for one id by logging and skipping that id only, still
performing the lookup for the remaining ids.  The code violates this: the
exception from `readCachedResults` is not caught inside
`getCachedStaticQueryResults`, so in `envCorruptFirst` — whose first
component's artifact is corrupt while the second component's artifact is
valid — the batch returns the parse error after a single read attempt (the
second id is never read), and `init` is aborted before `isInitialised` is
set. -/
theorem C3_corrupt_artifact_aborts_batch :
    (getCachedStaticQueryResults envCorruptFirst [] "/app").2
        = Except.error JsError.syntaxError ∧
    countArtifactReads (getCachedStaticQueryResults envCorruptFirst [] "/app").1 = 1 ∧
    (step envCorruptFirst initialState (Op.init "/app")).error = some JsError.syntaxError ∧
    (step envCorruptFirst initialState (Op.init "/app")).state.isInitialised = false := by
  decide

/-- Claim C4, counterexample: the invariant "a path is in `activePaths` iff at
least one live connection is joined to its room" fails in a reachable state.
A connection that registers `p1`, then `p2`, then disconnects leaves `p1` in
`activePaths` although `p1`'s room no longer exists, because the disconnect
cleanup calls `leaveRoom` only for the last active path. -/
theorem C4_invariant_fails_after_reregister_disconnect :
    (let fin := (runTrace emptyEnv initialState
        [Op.emitPageData { id := "p1", result := "v1" },
         Op.emitPageData { id := "p2", result := "v2" },
         Op.init "/app", Op.connect 0, Op.registerPath 0 "p1", Op.registerPath 0 "p2",
         Op.disconnect 0]).state
     some "p1" ∈ fin.activePaths ∧
     lookupM fin.rooms (getRoomNameFromPath (some "p1")) = none) := by
  decide

/-- Claim C4, amended: the per-scenario clauses of the claim hold — after a
connection performs `registerPath(p)` then `unregisterPath(p)`, `activePaths`
does not contain `p` when no other connection is joined to `p`'s room
(state `stA`), and still contains `p` when another connection `sid2` remains
joined to `p`'s room (state `stB`) — but the claimed iff-invariant over all
reachable states is refuted by `C4_invariant_fails_after_reregister_disconnect`. -/
theorem C4_register_unregister_scenarios (env : Env) (stA stB : ServerState)
    (sid sid2 : Nat) (p : String) (ms : List Nat)
    (hhasA : hasM stA.pageResults p = true)
    (hroomA : lookupM stA.rooms (getRoomNameFromPath (some p)) = none)
    (hhasB : hasM stB.pageResults p = true)
    (hroomB : lookupM stB.rooms (getRoomNameFromPath (some p)) = some ms)
    (hmem : sid2 ∈ ms) (hne : sid2 ≠ sid) :
    some p ∉
      (runTrace env stA [Op.registerPath sid p, Op.unregisterPath sid p]).state.activePaths ∧
    some p ∈
      (runTrace env stB [Op.registerPath sid p, Op.unregisterPath sid p]).state.activePaths := by
  constructor
  · have hj : roomsJoin stA.rooms (getRoomNameFromPath (some p)) sid
        = stA.rooms ++ [(getRoomNameFromPath (some p), [sid])] := by
      rw [roomsJoin, hroomA]
    simp only [runTrace, step, handleRegisterPath_of_has env stA sid p hhasA,
      handleUnregisterPath, leaveRoom]
    simp only [hj, roomsLeave_append, roomsLeave_of_lookup_none _ _ _ hroomA,
      roomsLeave_single_self, List.append_nil, hroomA]
    simp [lookupM_append_none _ hroomA, hroomA, mem_setDelete_iff]
  · have hj : roomsJoin stB.rooms (getRoomNameFromPath (some p)) sid
        = setM stB.rooms (getRoomNameFromPath (some p)) (setAdd ms sid) := by
      rw [roomsJoin, hroomB]
    have hlk : lookupM
        (roomsLeave (setM stB.rooms (getRoomNameFromPath (some p)) (setAdd ms sid))
          (getRoomNameFromPath (some p)) sid)
        (getRoomNameFromPath (some p)) = some (setDelete (setAdd ms sid) sid) :=
      roomsLeave_lookup_of_mem _ _ _ sid2 _ (lookupM_setM_self _ _ _)
        ((mem_setAdd_iff _ _ _).2 (Or.inl hmem)) hne
    have hmem2 : sid2 ∈ setDelete (setAdd ms sid) sid :=
      (mem_setDelete_iff _ _ _).2 ⟨(mem_setAdd_iff _ _ _).2 (Or.inl hmem), hne⟩
    have hemp : (setDelete (setAdd ms sid) sid).isEmpty = false := by
      simp [List.isEmpty_iff]
      exact List.ne_nil_of_mem hmem2
    simp only [runTrace, step, handleRegisterPath_of_has env stB sid p hhasB,
      handleUnregisterPath, leaveRoom]
    simp only [hj, hlk, hemp]
    simp [mem_setAdd_iff]

/-- witness for `C4_register_unregister_scenarios`: in `stHasPage` (empty room
map) socket 0 registering and unregistering `/about` leaves no trace in
`activePaths`; in `stHasPageOther` (socket 7 already in the room) the path
stays. -/
theorem C4_register_unregister_scenarios_witness :
    (hasM stHasPage.pageResults "/about" = true ∧
      lookupM stHasPage.rooms (getRoomNameFromPath (some "/about")) = none ∧
      hasM stHasPageOther.pageResults "/about" = true ∧
      lookupM stHasPageOther.rooms (getRoomNameFromPath (some "/about")) = some [7] ∧
      7 ∈ [7] ∧ 7 ≠ 0) ∧
    some "/about" ∉
      (runTrace emptyEnv stHasPage
        [Op.registerPath 0 "/about", Op.unregisterPath 0 "/about"]).state.activePaths ∧
    some "/about" ∈
      (runTrace emptyEnv stHasPageOther
        [Op.registerPath 0 "/about", Op.unregisterPath 0 "/about"]).state.activePaths := by
  refine ⟨by decide, ?_, ?_⟩
  · exact (C4_register_unregister_scenarios emptyEnv stHasPage stHasPageOther 0 7 "/about" [7]
      (by decide) (by decide) (by decide) (by decide) (by decide) (by decide)).1
  · exact (C4_register_unregister_scenarios emptyEnv stHasPage stHasPageOther 0 7 "/about" [7]
      (by decide) (by decide) (by decide) (by decide) (by decide) (by decide)).2

/-- Claim C5: for a path `p` with an existing metadata entry and a valid
artifact, `registerPath(p)` followed immediately by a second `registerPath(p)`
triggers at most one artifact read and throws nothing: the first call fills
`pageResults`, so the second call's `pageResults.has(path)` guard skips the
loader. -/
theorem C5_double_register_single_artifact_read (env : Env) (st : ServerState)
    (sid : Nat) (p : String) (pg : Page) (dp : String) (v : JsValue)
    (hpg : lookupM env.pages p = some pg)
    (hdp : lookupM env.jsonDataPaths pg.jsonName = some dp)
    (hfs : env.fs (artifactFilePath st.programDir dp) = ReadOutcome.ok v) :
    countArtifactReads
        (runTrace env st [Op.registerPath sid p, Op.registerPath sid p]).effects ≤ 1 ∧
    (runTrace env st [Op.registerPath sid p, Op.registerPath sid p]).error = none := by
  by_cases hhas : hasM st.pageResults p = true
  · simp [runTrace, step, handleRegisterPath, hhas, countArtifactReads]
  · rw [Bool.not_eq_true] at hhas
    simp [runTrace, step, handleRegisterPath, hhas, getCachedPageData, hpg, hdp,
      readCachedResults, hfs, countArtifactReads, hasM_setM_self]

/-- witness for `C5_double_register_single_artifact_read` in `envPageOk` from
the fresh state `stProg`. -/
theorem C5_double_register_single_artifact_read_witness :
    (lookupM envPageOk.pages "/about" = some { jsonName := "pj" } ∧
      lookupM envPageOk.jsonDataPaths "pj" = some "abc123" ∧
      envPageOk.fs (artifactFilePath stProg.programDir "abc123") = ReadOutcome.ok "vAbout") ∧
    countArtifactReads
        (runTrace envPageOk stProg
          [Op.registerPath 0 "/about", Op.registerPath 0 "/about"]).effects ≤ 1 ∧
    (runTrace envPageOk stProg
        [Op.registerPath 0 "/about", Op.registerPath 0 "/about"]).error = none := by
  refine ⟨by decide, ?_⟩
  exact C5_double_register_single_artifact_read envPageOk stProg 0 "/about"
    { jsonName := "pj" } "abc123" "vAbout" (by decide) (by decide) (by decide)

/-- Claim C6: in an initialised state, `emitPageData({id: p, result: r})`
makes a subsequent lookup of `p` in `pageResults` return exactly the new
entry, overwriting any prior entry, and broadcasts a `pageQueryResult`
message carrying that entry. -/
theorem C6_emitPageData_stores_and_broadcasts (env : Env) (st : ServerState)
    (p : String) (r : JsValue) (hinit : st.isInitialised = true) :
    lookupM (step env st (Op.emitPageData { id := p, result := r })).state.pageResults p
      = some (some { id := p, result := r }) ∧
    Effect.broadcast { type := "pageQueryResult", payload := some { id := p, result := r } }
      ∈ (step env st (Op.emitPageData { id := p, result := r })).effects := by
  constructor
  · simp [step, emitPageData, lookupM_setM_self]
  · simp [step, emitPageData, hinit]

/-- witness for `C6_emitPageData_stores_and_broadcasts` at `stInit`. -/
theorem C6_emitPageData_stores_and_broadcasts_witness :
    stInit.isInitialised = true ∧
    (lookupM (step emptyEnv stInit
        (Op.emitPageData { id := "/about", result := "vNew" })).state.pageResults "/about"
      = some (some { id := "/about", result := "vNew" }) ∧
    Effect.broadcast { type := "pageQueryResult", payload := some { id := "/about", result := "vNew" } }
      ∈ (step emptyEnv stInit
          (Op.emitPageData { id := "/about", result := "vNew" })).effects) :=
  ⟨by decide, C6_emitPageData_stores_and_broadcasts emptyEnv stInit "/about" "vNew" (by decide)⟩

/-- Claim C7: when the startup batch load succeeds, the merge
`new Map([...fresh, ...cached])` never overwrites an existing key: every
shared-result id already in the store keeps its fresh entry, and
loader-provided entries appear exactly at the ids not previously present
(because `getCachedStaticQueryResults` skips every hash already in the
store, the two maps have disjoint keys). -/
theorem C7_init_merge_never_overwrites (env : Env) (st : ServerState) (directory : String)
    (effs : List Effect) (cached : List (String × QueryResult))
    (hnd : (st.staticQueryResults.map Prod.fst).Nodup)
    (hload : getCachedStaticQueryResults env st.staticQueryResults directory
      = (effs, Except.ok cached)) :
    (∀ k v, lookupM st.staticQueryResults k = some v →
      lookupM (step env st (Op.init directory)).state.staticQueryResults k = some v) ∧
    (∀ k, lookupM st.staticQueryResults k = none →
      lookupM (step env st (Op.init directory)).state.staticQueryResults k
        = lookupM cached k) := by
  have hok : (getCachedStaticQueryResultsAux env st.staticQueryResults directory
      env.staticQueryComponents []).2 = Except.ok cached := by
    rw [← getCachedStaticQueryResults, hload]
  have hstate := handleInit_state_of_ok env st directory effs cached hload
  constructor
  · intro k v hv
    rw [hstate]
    have hnone : lookupM cached k = none := by
      rw [getCachedStaticQueryResultsAux_lookup_of_has env st.staticQueryResults directory
        env.staticQueryComponents [] cached k hok (by simp [hasM, hv])]
      rfl
    exact mergeMaps_preserves hnd hv hnone
  · intro k hk
    rw [hstate]
    have hcnd : (cached.map Prod.fst).Nodup :=
      getCachedStaticQueryResultsAux_nodup env st.staticQueryResults directory
        env.staticQueryComponents [] cached (by simp) hok
    exact mergeMaps_right hcnd hk

/-- witness for `C7_init_merge_never_overwrites`: in `envStaticOk` starting
from `stFresh`, initialisation keeps the fresh `h1` entry and installs the
loaded `h2` entry. -/
theorem C7_init_merge_never_overwrites_witness :
    ((stFresh.staticQueryResults.map Prod.fst).Nodup ∧
      getCachedStaticQueryResults envStaticOk stFresh.staticQueryResults "/app"
        = ([Effect.artifactRead "/app/public/static/d/d2.json"],
           Except.ok [("h2", { id := "h2", result := "v2" })]) ∧
      lookupM stFresh.staticQueryResults "h1" = some freshH1 ∧
      lookupM stFresh.staticQueryResults "h2" = none) ∧
    lookupM (step envStaticOk stFresh (Op.init "/app")).state.staticQueryResults "h1"
      = some freshH1 ∧
    lookupM (step envStaticOk stFresh (Op.init "/app")).state.staticQueryResults "h2"
      = lookupM [("h2", { id := "h2", result := "v2" })] "h2" := by
  refine ⟨by decide, ?_, ?_⟩
  · exact (C7_init_merge_never_overwrites envStaticOk stFresh "/app"
      [Effect.artifactRead "/app/public/static/d/d2.json"]
      [("h2", { id := "h2", result := "v2" })] (by decide) (by decide)).1
      "h1" freshH1 (by decide)
  · exact (C7_init_merge_never_overwrites envStaticOk stFresh "/app"
      [Effect.artifactRead "/app/public/static/d/d2.json"]
      [("h2", { id := "h2", result := "v2" })] (by decide) (by decide)).2
      "h2" (by decide)

/-- Claim C8: a connection registering `p1` and then `p2` without
unregistering stays joined to both rooms, and its disconnect performs an
explicit leave only for `p2`'s room, leaving the core's `activePaths`
bookkeeping for `p1` untouched (`p1` stays in `activePaths`). -/
theorem C8_reregister_joins_both_rooms_leaves_only_latest (env : Env) (st : ServerState)
    (sid : Nat) (p1 p2 : String) (hne : p1 ≠ p2)
    (h1 : hasM st.pageResults p1 = true)
    (h2 : hasM st.pageResults p2 = true) :
    (let r2 := runTrace env st [Op.registerPath sid p1, Op.registerPath sid p2]
     let r3 := step env r2.state (Op.disconnect sid)
     sid ∈ (lookupM r2.state.rooms (getRoomNameFromPath (some p1))).getD [] ∧
     sid ∈ (lookupM r2.state.rooms (getRoomNameFromPath (some p2))).getD [] ∧
     r3.effects = [Effect.leave sid (getRoomNameFromPath (some p2))] ∧
     some p1 ∈ r3.state.activePaths) := by
  have hr2 : (runTrace env st [Op.registerPath sid p1, Op.registerPath sid p2]).state =
      { st with
        rooms := roomsJoin (roomsJoin st.rooms (getRoomNameFromPath (some p1)) sid)
          (getRoomNameFromPath (some p2)) sid,
        sockets := setM (setM st.sockets sid (some p1)) sid (some p2),
        activePaths := setAdd (setAdd st.activePaths (some p1)) (some p2) } := by
    simp [runTrace, step, handleRegisterPath, h1, h2]
  refine ⟨?_, ?_, ?_, ?_⟩
  · rw [hr2]
    simp only []
    rw [roomsJoin_lookup_ne _ _ _ _ (getRoomNameFromPath_ne p1 p2 hne)]
    exact roomsJoin_mem_self _ _ _
  · rw [hr2]
    exact roomsJoin_mem_self _ _ _
  · rw [hr2]
    simp only [step, handleDisconnect, lookupM_setM_self, leaveRoom]
  · rw [hr2]
    simp only [step, handleDisconnect, lookupM_setM_self, leaveRoom]
    have hm : some p1 ∈ setAdd (setAdd st.activePaths (some p1)) (some p2) :=
      (mem_setAdd_iff _ _ _).2 (Or.inl ((mem_setAdd_iff _ _ _).2 (Or.inr rfl)))
    split
    · rw [mem_setDelete_iff]
      refine ⟨hm, ?_⟩
      intro hc
      injection hc with hc2
      exact hne hc2
    · exact hm

/-- witness for `C8_reregister_joins_both_rooms_leaves_only_latest` from
`stTwoPages` with socket 0. -/
theorem C8_reregister_joins_both_rooms_leaves_only_latest_witness :
    ("p1" ≠ "p2" ∧ hasM stTwoPages.pageResults "p1" = true ∧
      hasM stTwoPages.pageResults "p2" = true) ∧
    (let r2 := runTrace emptyEnv stTwoPages [Op.registerPath 0 "p1", Op.registerPath 0 "p2"]
     let r3 := step emptyEnv r2.state (Op.disconnect 0)
     0 ∈ (lookupM r2.state.rooms (getRoomNameFromPath (some "p1"))).getD [] ∧
     0 ∈ (lookupM r2.state.rooms (getRoomNameFromPath (some "p2"))).getD [] ∧
     r3.effects = [Effect.leave 0 (getRoomNameFromPath (some "p2"))] ∧
     some "p1" ∈ r3.state.activePaths) :=
  ⟨by decide, C8_reregister_joins_both_rooms_leaves_only_latest emptyEnv stTwoPages 0 "p1" "p2"
    (by decide) (by decide) (by decide)⟩

/-- Claim C9: before initialisation, `emitPageData` and `emitStaticQueryData`
store the entry in the corresponding map and send nothing; a pre-init shared
entry survives the startup cache merge unchanged (the loader skips ids
already in the store) and is then replayed as a broadcast when a client
connects. -/
theorem C9_preinit_emit_stores_without_send (env : Env) (st : ServerState)
    (d : QueryResult) (directory : String) (sid : Nat)
    (hpre : st.isInitialised = false)
    (hnd : (st.staticQueryResults.map Prod.fst).Nodup) :
    ((step env st (Op.emitPageData d)).effects = [] ∧
      lookupM (step env st (Op.emitPageData d)).state.pageResults d.id = some (some d)) ∧
    ((step env st (Op.emitStaticQueryData d)).effects = [] ∧
      lookupM (step env st (Op.emitStaticQueryData d)).state.staticQueryResults d.id = some d) ∧
    (∀ effs cached,
      getCachedStaticQueryResults env
          (step env st (Op.emitStaticQueryData d)).state.staticQueryResults directory
        = (effs, Except.ok cached) →
      lookupM (step env (step env st (Op.emitStaticQueryData d)).state
          (Op.init directory)).state.staticQueryResults d.id = some d ∧
      Effect.broadcast { type := "staticQueryResult", payload := some d }
        ∈ (step env (step env (step env st (Op.emitStaticQueryData d)).state
            (Op.init directory)).state (Op.connect sid)).effects) := by
  have hs : (step env st (Op.emitStaticQueryData d)).state
      = { st with staticQueryResults := setM st.staticQueryResults d.id d } := by
    simp [step, emitStaticQueryData]
  refine ⟨⟨?_, ?_⟩, ⟨?_, ?_⟩, ?_⟩
  · simp [step, emitPageData, hpre]
  · simp [step, emitPageData, lookupM_setM_self]
  · simp [step, emitStaticQueryData, hpre]
  · simp [step, emitStaticQueryData, lookupM_setM_self]
  · intro effs cached hload
    rw [hs] at hload ⊢
    have hinit := handleInit_state_of_ok env
      { st with staticQueryResults := setM st.staticQueryResults d.id d }
      directory effs cached hload
    have hok : (getCachedStaticQueryResultsAux env (setM st.staticQueryResults d.id d)
        directory env.staticQueryComponents []).2 = Except.ok cached := by
      rw [← getCachedStaticQueryResults]
      exact congrArg Prod.snd hload
    have hcnone : lookupM cached d.id = none := by
      rw [getCachedStaticQueryResultsAux_lookup_of_has env _ directory _ [] cached d.id hok
        (by simp [hasM, lookupM_setM_self])]
      rfl
    have hmerge : lookupM (mergeMaps (setM st.staticQueryResults d.id d) cached) d.id
        = some d :=
      mergeMaps_preserves (setM_keys_nodup _ _ hnd) (lookupM_setM_self _ _ _) hcnone
    constructor
    · rw [hinit]
      exact hmerge
    · rw [hinit]
      simp only [step, handleConnection]
      refine List.mem_append.2 (Or.inl ?_)
      exact List.mem_map.2 ⟨(d.id, d), lookupM_some_mem hmerge, rfl⟩

/-- witness for `C9_preinit_emit_stores_without_send` from the constructor
state, with the shared result `freshH1` and an empty build store. -/
theorem C9_preinit_emit_stores_without_send_witness :
    (initialState.isInitialised = false ∧
      (initialState.staticQueryResults.map Prod.fst).Nodup ∧
      getCachedStaticQueryResults emptyEnv
          (step emptyEnv initialState (Op.emitStaticQueryData freshH1)).state.staticQueryResults
          "/app"
        = ([], Except.ok [])) ∧
    ((step emptyEnv initialState (Op.emitPageData freshH1)).effects = [] ∧
      lookupM (step emptyEnv initialState
        (Op.emitPageData freshH1)).state.pageResults freshH1.id = some (some freshH1)) ∧
    ((step emptyEnv initialState (Op.emitStaticQueryData freshH1)).effects = [] ∧
      lookupM (step emptyEnv initialState
        (Op.emitStaticQueryData freshH1)).state.staticQueryResults freshH1.id = some freshH1) ∧
    (lookupM (step emptyEnv (step emptyEnv initialState
        (Op.emitStaticQueryData freshH1)).state
        (Op.init "/app")).state.staticQueryResults freshH1.id = some freshH1 ∧
      Effect.broadcast { type := "staticQueryResult", payload := some freshH1 }
        ∈ (step emptyEnv (step emptyEnv (step emptyEnv initialState
            (Op.emitStaticQueryData freshH1)).state
            (Op.init "/app")).state (Op.connect 0)).effects) := by
  have h := C9_preinit_emit_stores_without_send emptyEnv initialState freshH1 "/app" 0
    (by decide) (by decide)
  exact ⟨⟨by decide, by decide, by decide⟩, h.1, h.2.1, h.2.2 [] [] (by decide)⟩

/-- Claim C10: a disconnect on a connection that never registered a path does
not throw: the cleanup runs `leaveRoom(null)`, which targets the derived room
name `path-null` and can only delete the value `null` from `activePaths`,
leaving every real path's membership unchanged. -/
theorem C10_disconnect_without_register_harmless (env : Env) (st : ServerState) (sid : Nat)
    (hap : lookupM st.sockets sid = some none) :
    (step env st (Op.disconnect sid)).error = none ∧
    (step env st (Op.disconnect sid)).effects = [Effect.leave sid "path-null"] ∧
    ∀ p : String, (some p ∈ (step env st (Op.disconnect sid)).state.activePaths
      ↔ some p ∈ st.activePaths) := by
  refine ⟨?_, ?_, fun p => ?_⟩
  · simp [step, handleDisconnect, hap, leaveRoom]
  · simp [step, handleDisconnect, hap, leaveRoom, getRoomNameFromPath, jsPathString]
  · simp only [step, handleDisconnect, hap, leaveRoom]
    split
    · simp [mem_setDelete_iff]
    · exact Iff.rfl

/-- witness for `C10_disconnect_without_register_harmless` at `stConn`
(socket 0 connected, `activePath` still `null`), checked on the real path
`/a`. -/
theorem C10_disconnect_without_register_harmless_witness :
    lookupM stConn.sockets 0 = some none ∧
    ((step emptyEnv stConn (Op.disconnect 0)).error = none ∧
      (step emptyEnv stConn (Op.disconnect 0)).effects = [Effect.leave 0 "path-null"] ∧
      (some "/a" ∈ (step emptyEnv stConn (Op.disconnect 0)).state.activePaths
        ↔ some "/a" ∈ stConn.activePaths)) := by
  have h := C10_disconnect_without_register_harmless emptyEnv stConn 0 (by decide)
  exact ⟨by decide, h.1, h.2.1, h.2.2 "/a"⟩

end WebsocketManager
